import Mathlib

/-!
Verification of the ankku continuous-deployment daemon (src/main.go).

The development shallowly embeds the program's core:

* the process-supervisor actor started by `Application.StartDaemon`
  (the `for`/`select` loop over `commandChannel`, the `done` wait channel
  and `stopChannel`), together with `mayKillCommand` and `setupCommand`;
* `Repository.GitPull`;
* `Application.reloadImpl`, `findProcCommand`, `Application.Reload` and
  `Application.Stop`.

Go/OS facts used by the embedding (recorded here because the Lean model
relies on them):

* `exec.Command(name, arg...)` produces a `Cmd` whose `Args` slice is
  `name` followed by `arg...` (so `Args[0]` is the program name);
* `Cmd.Start` on a command whose `Process` field is already set fails with
  "exec: already started" and starts nothing; `Cmd.Wait` after a previous
  `Wait` completed returns the plain error "exec: Wait was already called",
  which is not an `*exec.ExitError`;
* `Cmd.Wait` returns `nil` when the child exits with status 0, and an
  `*exec.ExitError` (with the non-zero code, or -1 for a signal death)
  otherwise;
* `setupCommand` sets `Setpgid`, so every started child is the leader of a
  fresh process group (modelled: pgid = pid);
* `syscall.Getpgid(pid)` fails when no process `pid` exists; the loop then
  ignores the error, leaving `pgid = 0`, and `syscall.Kill(-0, SIGKILL)`
  signals the daemon's own process group (modelled as the terminal
  `selfKill` outcome; supervised children live in their own groups and are
  not part of the daemon's group);
* `yaml.Unmarshal` of a nil byte slice succeeds and leaves the target map
  empty.

Receiving on an abandoned channel never happens; channels are modelled by
generation numbers and a receive whose generation is not the current one is
a no-op for the loop.
-/

namespace Ankku

/-- A command value: executable path plus argument vector. `args` includes
the program name at position 0, exactly as in Go's `exec.Cmd.Args`. -/
structure Cmd where
  path : String
  args : List String
deriving DecidableEq, Repr

/-- `exec.Command(name, arg...)`: `Path` is the (looked-up) name and `Args`
is `name :: arg`. `LookPath` resolution is not modelled; it never changes
the shape of `Args`. -/
def execCommand (name : String) (args : List String) : Cmd :=
  ⟨name, name :: args⟩

/-- The restart expression at src/main.go:371:
`command = exec.Command(command.Path, command.Args...)`. -/
def relaunch (c : Cmd) : Cmd :=
  execCommand c.path c.args

/-- The `*exec.Cmd` object held in the loop's `command` variable: the
underlying command value, the pid of its child once `Start` succeeded
(`Process` field; the child is a fresh process-group leader so its pgid
equals its pid), and whether a `Wait` call has completed (`ProcessState`
field set). -/
structure CmdObj where
  cmd : Cmd
  pid : Option Nat
  waited : Bool
deriving DecidableEq, Repr

/-- Ghost record of one alive supervised process group: its pgid (= leader
pid) and the index of the `Launch` it serves. A group stands for the leader
together with all of its descendants; a group kill removes the whole unit. -/
structure GProc where
  pgid : Nat
  launchIdx : Nat
deriving DecidableEq, Repr

/-- The value a waiter goroutine `go func() { done <- command.Wait() }`
delivers on the `done` channel. -/
inductive WaitRes
  | nilRes
  | exitError (code : Int)
  | otherError
deriving DecidableEq, Repr

/-- One message consumed by the `select` of the supervisor loop:
a command on `commandChannel`, a wait result on a `done` channel of a given
generation, or a stop request on `stopChannel`. -/
inductive Event
  | launch (c : Cmd)
  | done (gen : Nat) (res : WaitRes)
  | stop
deriving DecidableEq, Repr

/-- The supervisor loop's state: the local variables `command`, `timeFailed`
and (as a generation number) `done`, plus ghost data: the index of the most
recent launch, the alive supervised process groups, and a fresh-pid
counter. -/
structure SupState where
  command : Option CmdObj
  timeFailed : Nat
  doneGen : Nat
  launchIdx : Nat
  alive : List GProc
  nextPid : Nat
deriving DecidableEq, Repr

/-- Outcome of running the loop: still iterating, dead via `log.Fatalf`,
returned after a stop (`ack` records whether `out <- true` was sent), or
dead because `Kill(-0, SIGKILL)` signalled the daemon's own group. -/
inductive RunRes
  | running (s : SupState)
  | fatal (s : SupState)
  | stopped (s : SupState) (ack : Bool)
  | selfKill (s : SupState)
deriving DecidableEq, Repr

/-- The state carried by a run outcome. -/
def resState : RunRes → SupState
  | .running s => s
  | .fatal s => s
  | .stopped s _ => s
  | .selfKill s => s

/-- `mayKillCommand` (src/main.go:340): if `command` and `command.Process`
are non-nil, `Getpgid` the child and `Kill` the negated group id. Result
`some alive1` is the surviving groups; `none` is the `Getpgid`-failure path
in which `Kill(-0, SIGKILL)` kills the daemon's own process group. -/
def mayKill (alive : List GProc) (command : Option CmdObj) : Option (List GProc) :=
  match command with
  | none => some alive
  | some c =>
    match c.pid with
    | none => some alive
    | some p =>
      if alive.any (fun q => q.pgid == p) then
        some (alive.filter (fun q => q.pgid != p))
      else
        none

/-- The fall-through tail of every loop iteration (src/main.go:383):
`setupCommand(command); command.Start(); go func(...) { done <- command.Wait() }`.
`Start` on a fresh command spawns a new process-group leader; `Start` on an
already-started command fails and its error is discarded by the loop. -/
def startCmd (s : SupState) : SupState :=
  match s.command with
  | none => s
  | some c =>
    match c.pid with
    | some _ => s
    | none =>
      { s with
        command := some ⟨c.cmd, some s.nextPid, false⟩
        alive := s.alive ++ [⟨s.nextPid, s.launchIdx⟩]
        nextPid := s.nextPid + 1 }

/-- One iteration of the `for`/`select` loop in `StartDaemon`
(src/main.go:350-390), consuming one message. -/
def step (s : SupState) : Event → RunRes
  | .launch c =>
    match mayKill s.alive s.command with
    | none => .selfKill s
    | some alive1 =>
      .running (startCmd
        { command := some ⟨c, none, false⟩
          timeFailed := 0
          doneGen := s.doneGen + 1
          launchIdx := s.launchIdx + 1
          alive := alive1
          nextPid := s.nextPid })
  | .done gen res =>
    if gen = s.doneGen then
      match s.command with
      | none => .running s
      | some c =>
        let alive1 :=
          match res, c.pid with
          | .otherError, _ => s.alive
          | _, some p => s.alive.filter (fun q => q.pgid != p)
          | _, none => s.alive
        match res with
        | .exitError code =>
          if code ≠ 0 ∧ s.timeFailed < 3 then
            .running (startCmd
              { command := some ⟨relaunch c.cmd, none, false⟩
                timeFailed := s.timeFailed + 1
                doneGen := s.doneGen
                launchIdx := s.launchIdx
                alive := alive1
                nextPid := s.nextPid })
          else
            .running (startCmd
              { command := some ⟨c.cmd, c.pid, true⟩
                timeFailed := s.timeFailed
                doneGen := s.doneGen
                launchIdx := s.launchIdx
                alive := alive1
                nextPid := s.nextPid })
        | _ =>
          .fatal
            { command := some ⟨c.cmd, c.pid, true⟩
              timeFailed := s.timeFailed
              doneGen := s.doneGen
              launchIdx := s.launchIdx
              alive := alive1
              nextPid := s.nextPid }
    else
      .running s
  | .stop =>
    match mayKill s.alive s.command with
    | none => .selfKill s
    | some alive1 =>
      .stopped { s with alive := alive1 } true

/-- Run the loop on a list of messages; a terminal outcome consumes no
further message (the goroutine has returned or the daemon has exited). -/
def run (s : SupState) : List Event → RunRes
  | [] => .running s
  | e :: es =>
    match step s e with
    | .running s1 => run s1 es
    | .fatal s1 => .fatal s1
    | .stopped s1 a => .stopped s1 a
    | .selfKill s1 => .selfKill s1

/-- The state of the loop right after `StartDaemon` spawns it: `command`
and `done` are nil, `timeFailed` is 0, nothing was launched yet. -/
def initState : SupState :=
  ⟨none, 0, 0, 0, [], 1⟩

/-- The on-disk state of `app/Procfile` as seen by `findProcCommand`:
unreadable (`ioutil.ReadFile` fails, `reader` is nil), readable but not
valid yaml, or a yaml mapping from process type to command string. -/
inductive ProcfileState
  | unreadable (msg : String)
  | malformed (msg : String)
  | content (entries : List (String × String))
deriving DecidableEq, Repr

/-- Go map lookup `commands[commandName]` on the unmarshalled mapping. -/
def lookupCmd (name : String) : List (String × String) → Option String
  | [] => none
  | (k, v) :: rest => if k = name then some v else lookupCmd name rest

/-- `yaml.Unmarshal(reader, &commands)` where `reader` is the result of
`ioutil.ReadFile`. When the read failed, `reader` is the nil slice and
`Unmarshal` succeeds, leaving the freshly made map empty. -/
def yamlUnmarshal : ProcfileState → Except String (List (String × String))
  | .unreadable _ => .ok []
  | .malformed m => .error m
  | .content entries => .ok entries

/-- `Application.findProcCommand` (src/main.go:405-418). Note that the
`err` returned by `ReadFile` is immediately overwritten by the result of
`yaml.Unmarshal`, so a read failure is never surfaced as such. -/
def findProcCommand (pf : ProcfileState) (commandName : String) : Except String String :=
  match yamlUnmarshal pf with
  | .error e => .error e
  | .ok commands =>
    match lookupCmd commandName commands with
    | none => .error ("Cannot find command named " ++ commandName)
    | some cmd => .ok cmd

/-- The `scriptTmpl` of `reloadImpl` instantiated with the environment
directory, application directory, port and the resolved web command. -/
def buildScript (envDir appDir : String) (port : Nat) (cmd : String) : String :=
  "\n\tsource " ++ envDir ++ "/bin/activate\n\tcd " ++ appDir ++
    "\n\tpip install -r requirements.txt\n\texport PORT=" ++ toString port ++
    "\n\t" ++ cmd ++ "\n\t"

/-- Externally visible side effects of one `reloadImpl` call, in order. -/
inductive Action
  | checkout
  | setupVenv
  | resolveProcfile
  | sendCommand (c : Cmd)
deriving DecidableEq, Repr

/-- `Application.reloadImpl` (src/main.go:308-333): checkout, virtualenv
setup, Procfile resolution, then build the `bash -c` script command and
send it on `commandChannel`. `checkoutRes` and `venvRes` are the outcomes
of the two fallible collaborators. The `Except` value is the function's
returned error; `.ok c` means `c` was sent on the channel. -/
def reloadImpl (checkoutRes venvRes : Except String Unit) (pf : ProcfileState)
    (envDir appDir : String) (port : Nat) : List Action × Except String Cmd :=
  match checkoutRes with
  | .error e => ([.checkout], .error e)
  | .ok _ =>
    match venvRes with
    | .error e => ([.checkout, .setupVenv], .error e)
    | .ok _ =>
      match findProcCommand pf "web" with
      | .error e => ([.checkout, .setupVenv, .resolveProcfile], .error e)
      | .ok c =>
        let cmd := execCommand "bash" ["-c", buildScript envDir appDir port c]
        ([.checkout, .setupVenv, .resolveProcfile, .sendCommand cmd], .ok cmd)

/-- One deployment cycle's effect on the supervisor loop: if `reloadImpl`
returns an error, nothing was sent on `commandChannel` and the loop sees no
message; otherwise the loop consumes the `Launch`. -/
def deployCycle (s : SupState) (checkoutRes venvRes : Except String Unit)
    (pf : ProcfileState) (envDir appDir : String) (port : Nat) :
    RunRes × Option String :=
  match (reloadImpl checkoutRes venvRes pf envDir appDir port).2 with
  | .error e => (.running s, some e)
  | .ok c => (step s (.launch c), none)

/-- The refs relevant to `GitPull`: the local branch tip (none while no
local tracked branch exists) and the remote-tracking ref
`refs/remotes/origin/<branch>`. Commit ids are compared by string equality,
as in `localCommit.Id().String() != remoteCommit.Id().String()`. -/
structure GitRepo where
  localTip : Option String
  remoteTrackingTip : Option String
deriving DecidableEq, Repr

/-- `Repository.GitPull` (src/main.go:230-264). `fetchOk` is the outcome of
`remote.Fetch`; `fetched` is the remote branch tip the fetch leaves in
`refs/remotes/origin/<branch>` (none when the reference lookup fails);
`upstreamOk` is the outcome of `SetUpstream` on the create-branch path.
Returns the repository state plus Go's `(hasUpdate bool, err error)`. -/
def GitPull (fetchOk : Bool) (fetched : Option String) (upstreamOk : Bool)
    (repo : GitRepo) : GitRepo × Bool × Option String :=
  if fetchOk then
    match fetched with
    | none => ({ repo with remoteTrackingTip := none }, false, some "Reference lookup failed")
    | some rtip =>
      let repo1 : GitRepo := { repo with remoteTrackingTip := some rtip }
      match repo.localTip with
      | none =>
        ({ repo1 with localTip := some rtip }, true,
          if upstreamOk then none else some "SetUpstream failed")
      | some ltip =>
        if ltip = rtip then (repo1, false, none)
        else ({ repo1 with localTip := some rtip }, true, none)
  else
    (repo, false, some "Fetch failed")

/-- `Application.Reload` (src/main.go:423-434): `GitPull`, propagate its
error, and run `reloadImpl` only when `updated || force`. Returns the
repository state, the actions performed, and the returned error. -/
def Reload (fetchOk : Bool) (fetched : Option String) (upstreamOk : Bool)
    (repo : GitRepo) (force : Bool) (checkoutRes venvRes : Except String Unit)
    (pf : ProcfileState) (envDir appDir : String) (port : Nat) :
    GitRepo × List Action × Option String :=
  match GitPull fetchOk fetched upstreamOk repo with
  | (repo1, _, some e) => (repo1, [], some e)
  | (repo1, updated, none) =>
    if updated || force then
      match reloadImpl checkoutRes venvRes pf envDir appDir port with
      | (acts, .error e) => (repo1, acts, some e)
      | (acts, .ok _) => (repo1, acts, none)
    else
      (repo1, [], none)

/-- A group `p` is owned by the loop's `command` object when that object's
child process leads `p`. -/
def ownedBy (command : Option CmdObj) (p : GProc) : Prop :=
  match command with
  | some c => c.pid = some p.pgid
  | none => False

/-- Loop invariant: at most one supervised process group is alive, and an
alive group is led by the current `command` object's child and serves the
most recent launch. -/
def aliveOk (s : SupState) : Prop :=
  s.alive.length ≤ 1 ∧ ∀ p ∈ s.alive, ownedBy s.command p ∧ p.launchIdx = s.launchIdx

/-- Whether the loop is still iterating. -/
def isRunning : RunRes → Bool
  | .running _ => true
  | _ => false

/-- Whether the loop died through `log.Fatalf` (daemon terminated). -/
def isFatal : RunRes → Bool
  | .fatal _ => true
  | _ => false

/-- Whether the loop returned from a stop after sending the
acknowledgment. -/
def isAckStopped : RunRes → Bool
  | .stopped _ ack => ack
  | _ => false

/-- Whether the loop died by `Kill(-0, SIGKILL)` signalling the daemon's
own process group. -/
def isSelfKill : RunRes → Bool
  | .selfKill _ => true
  | _ => false

/-- A sample web command, as `reloadImpl` would build it. -/
def demoCmd : Cmd :=
  execCommand "bash" ["-c", "srv"]

/-- The loop state after the first launch of `demoCmd`. -/
def demoS1 : SupState :=
  ⟨some ⟨demoCmd, some 1, false⟩, 0, 1, 1, [⟨1, 1⟩], 2⟩

/-- A non-zero exit of the current process, delivered on the first `done`
channel generation. -/
def failEv : Event :=
  .done 1 (.exitError 1)

theorem aliveOk_initState : aliveOk initState := by
  refine ⟨by simp [initState], ?_⟩
  intro p hp
  simp [initState] at hp

theorem alive_eq_nil (s : SupState)
    (h2 : ∀ p ∈ s.alive, ownedBy s.command p ∧ p.launchIdx = s.launchIdx)
    (hno : ∀ p : GProc, ¬ ownedBy s.command p) : s.alive = [] := by
  apply List.eq_nil_iff_forall_not_mem.mpr
  intro p hp
  exact hno p (h2 p hp).1

theorem filter_alive_nil (s : SupState) (c : CmdObj) (p0 : Nat)
    (h2 : ∀ p ∈ s.alive, ownedBy s.command p ∧ p.launchIdx = s.launchIdx)
    (hc : s.command = some c) (hp : c.pid = some p0) :
    s.alive.filter (fun q => q.pgid != p0) = [] := by
  apply List.filter_eq_nil_iff.mpr
  intro q hq
  have hov := (h2 q hq).1
  rw [hc] at hov
  simp only [ownedBy] at hov
  rw [hp] at hov
  have hqp : q.pgid = p0 := by
    injection hov with h
    exact h.symm
  simp [hqp]

theorem mayKill_of_aliveOk (s : SupState) (hs : aliveOk s) (l : List GProc)
    (h : mayKill s.alive s.command = some l) : l = [] := by
  obtain ⟨-, h2⟩ := hs
  unfold mayKill at h
  split at h
  · -- command = none
    next hc =>
    have halive : s.alive = [] := by
      apply alive_eq_nil s h2
      intro p
      rw [hc]
      simp [ownedBy]
    rw [halive] at h
    exact (Option.some_inj.mp h).symm
  · -- command = some c
    next c hc =>
    split at h
    · -- c.pid = none
      next hp =>
      have halive : s.alive = [] := by
        apply alive_eq_nil s h2
        intro p
        rw [hc]
        simp [ownedBy, hp]
      rw [halive] at h
      exact (Option.some_inj.mp h).symm
    · -- c.pid = some p0
      next p0 hp =>
      split at h
      · have hfil := filter_alive_nil s c p0 h2 hc hp
        rw [hfil] at h
        exact (Option.some_inj.mp h).symm
      · exact absurd h (by simp)

theorem aliveOk_of_nil (s : SupState) (h : s.alive = []) : aliveOk s := by
  refine ⟨by simp [h], ?_⟩
  intro p hp
  rw [h] at hp
  simp at hp

theorem aliveOk_of_single (s : SupState) (c : Cmd) (w : Bool) (pid : Nat)
    (hc : s.command = some ⟨c, some pid, w⟩) (ha : s.alive = [⟨pid, s.launchIdx⟩]) :
    aliveOk s := by
  refine ⟨by simp [ha], ?_⟩
  intro p hp
  rw [ha] at hp
  simp at hp
  subst hp
  exact ⟨by rw [hc]; simp [ownedBy], rfl⟩

theorem step_aliveOk (s : SupState) (e : Event) (hs : aliveOk s) :
    aliveOk (resState (step s e)) := by
  obtain ⟨h1, h2⟩ := hs
  cases e with
  | launch c =>
    simp only [step]
    cases hmk : mayKill s.alive s.command with
    | none => exact ⟨h1, h2⟩
    | some l =>
      have hl : l = [] := mayKill_of_aliveOk s ⟨h1, h2⟩ l hmk
      subst hl
      simp only [resState, startCmd]
      exact aliveOk_of_single _ c false s.nextPid rfl (by simp)
  | done gen res =>
    simp only [step]
    by_cases hgen : gen = s.doneGen
    · rw [if_pos hgen]
      cases hc : s.command with
      | none => exact ⟨h1, h2⟩
      | some c =>
        cases res with
        | nilRes =>
          simp only [resState]
          cases hcp : c.pid with
          | none =>
            apply aliveOk_of_nil
            simp only []
            exact alive_eq_nil s h2 (by rw [hc]; simp [ownedBy, hcp])
          | some p0 =>
            apply aliveOk_of_nil
            simp only []
            exact filter_alive_nil s c p0 h2 hc hcp
        | otherError =>
          simp only [resState]
          refine ⟨h1, ?_⟩
          intro p hp
          have hov := (h2 p hp).1
          rw [hc] at hov
          simp only [ownedBy] at hov ⊢
          exact ⟨hov, (h2 p hp).2⟩
        | exitError code =>
          dsimp only
          by_cases hif : code ≠ 0 ∧ s.timeFailed < 3
          · rw [if_pos hif]
            simp only [resState, startCmd]
            cases hcp : c.pid with
            | none =>
              have halive : s.alive = [] :=
                alive_eq_nil s h2 (by rw [hc]; simp [ownedBy, hcp])
              exact aliveOk_of_single _ (relaunch c.cmd) false s.nextPid rfl
                (by simp [halive])
            | some p0 =>
              have hfil := filter_alive_nil s c p0 h2 hc hcp
              exact aliveOk_of_single _ (relaunch c.cmd) false s.nextPid rfl
                (by simp [hfil])
          · rw [if_neg hif]
            simp only [resState, startCmd]
            cases hcp : c.pid with
            | none =>
              have halive : s.alive = [] :=
                alive_eq_nil s h2 (by rw [hc]; simp [ownedBy, hcp])
              exact aliveOk_of_single _ c.cmd false s.nextPid rfl
                (by simp [halive])
            | some p0 =>
              have hfil := filter_alive_nil s c p0 h2 hc hcp
              apply aliveOk_of_nil
              simp only [hcp]
              exact hfil
    · rw [if_neg hgen]
      exact ⟨h1, h2⟩
  | stop =>
    simp only [step]
    cases hmk : mayKill s.alive s.command with
    | none => exact ⟨h1, h2⟩
    | some l =>
      have hl : l = [] := mayKill_of_aliveOk s ⟨h1, h2⟩ l hmk
      subst hl
      exact aliveOk_of_nil _ rfl

theorem run_aliveOk (es : List Event) (s : SupState) (hs : aliveOk s) :
    aliveOk (resState (run s es)) := by
  induction es generalizing s with
  | nil => exact hs
  | cons e es ih =>
    simp only [run]
    cases hstep : step s e with
    | running s1 =>
      have h := step_aliveOk s e hs
      rw [hstep] at h
      exact ih s1 h
    | fatal s1 =>
      have h := step_aliveOk s e hs
      rw [hstep] at h
      exact h
    | stopped s1 a =>
      have h := step_aliveOk s e hs
      rw [hstep] at h
      exact h
    | selfKill s1 =>
      have h := step_aliveOk s e hs
      rw [hstep] at h
      exact h

theorem run_append (s : SupState) (es fs : List Event) :
    run s (es ++ fs) =
      match run s es with
      | .running s1 => run s1 fs
      | .fatal s1 => .fatal s1
      | .stopped s1 a => .stopped s1 a
      | .selfKill s1 => .selfKill s1 := by
  induction es generalizing s with
  | nil => simp [run]
  | cons e es ih =>
    simp only [List.cons_append, run]
    cases step s e with
    | running s1 => exact ih s1
    | fatal s1 => rfl
    | stopped s1 a => rfl
    | selfKill s1 => rfl

theorem startCmd_doneGen (s : SupState) : (startCmd s).doneGen = s.doneGen := by
  unfold startCmd
  split
  · rfl
  · split
    · rfl
    · rfl

theorem startCmd_timeFailed (s : SupState) : (startCmd s).timeFailed = s.timeFailed := by
  unfold startCmd
  split
  · rfl
  · split
    · rfl
    · rfl

/-- C1: at most one OS process is alive under supervision at any instant.
In every state the loop can reach, at most one supervised process group is
alive and any alive group serves the most recent launch; and when the loop
accepts a `Launch` while running, it kills the current group (via `Getpgid`
and `Kill` of the negated group id in `mayKillCommand`) before starting the
new command as a fresh group leader, so immediately afterwards exactly the
new command's group is alive. -/
theorem single_live_process (es : List Event) (s : SupState) (c : Cmd) (s' : SupState)
    (h : run initState es = .running s) (hl : step s (.launch c) = .running s') :
    s.alive.length ≤ 1 ∧ (∀ p ∈ s.alive, p.launchIdx = s.launchIdx) ∧
      s'.alive = [⟨s.nextPid, s.launchIdx + 1⟩] ∧ s'.launchIdx = s.launchIdx + 1 := by
  have hs : aliveOk s := by
    have hrun := run_aliveOk es initState aliveOk_initState
    rw [h] at hrun
    exact hrun
  obtain ⟨h1, h2⟩ := hs
  simp only [step] at hl
  cases hmk : mayKill s.alive s.command with
  | none =>
    rw [hmk] at hl
    cases hl
  | some l =>
    rw [hmk] at hl
    have hl0 : l = [] := mayKill_of_aliveOk s ⟨h1, h2⟩ l hmk
    subst hl0
    injection hl with hinj
    refine ⟨h1, fun p hp => (h2 p hp).2, ?_, ?_⟩
    · rw [← hinj]
      simp [startCmd]
    · rw [← hinj]
      simp [startCmd]

/-- Witness for `single_live_process` on a concrete run: the empty trace
followed by one launch of `demoCmd`. -/
theorem single_live_process_witness :
    initState.alive.length ≤ 1 ∧ demoS1.alive = [⟨initState.nextPid, initState.launchIdx + 1⟩] :=
  ⟨(single_live_process [] initState demoCmd demoS1 rfl rfl).1,
   (single_live_process [] initState demoCmd demoS1 rfl rfl).2.2.1⟩

/-- The stop handshake in the ordinary case, i.e. whenever `mayKillCommand`
does not hit the `Getpgid`-failure path: the actor kills the current
process group, sends `true` on the acknowledgment channel (which is exactly
what unblocks the `Stop` caller's `<-result`), and returns from the loop;
whatever messages arrive afterwards are never consumed, so the final
outcome of any extended trace is the same acknowledged stop. See
`stop_after_crashloop_selfkill` for the reachable state where the code
fails to do this. -/
theorem stop_handshake (es tail : List Event) (s : SupState)
    (h : run initState es = .running s)
    (hk : mayKill s.alive s.command ≠ none) :
    step s .stop = .stopped { s with alive := [] } true ∧
      run initState (es ++ Event.stop :: tail) = .stopped { s with alive := [] } true := by
  have hs : aliveOk s := by
    have hrun := run_aliveOk es initState aliveOk_initState
    rw [h] at hrun
    exact hrun
  obtain ⟨l, hl⟩ : ∃ l, mayKill s.alive s.command = some l := by
    cases hml : mayKill s.alive s.command with
    | none => exact absurd hml hk
    | some l => exact ⟨l, rfl⟩
  have hl0 : l = [] := mayKill_of_aliveOk s hs l hl
  subst hl0
  have hstep : step s .stop = .stopped { s with alive := [] } true := by
    simp only [step, hl]
  refine ⟨hstep, ?_⟩
  rw [run_append, h]
  simp only [run, hstep]

/-- Witness for `stop_handshake`: launch, then stop, with a further launch
queued behind the stop that is never consumed. -/
theorem stop_handshake_witness :
    step demoS1 .stop = .stopped { demoS1 with alive := [] } true ∧
      run initState ([.launch demoCmd] ++ Event.stop :: [.launch demoCmd])
        = .stopped { demoS1 with alive := [] } true :=
  stop_handshake [.launch demoCmd] [.launch demoCmd] demoS1 rfl (by decide)

/-- C8 is violated by the code: `Stop` is not an acknowledged handshake
from every state. After a launch and four non-zero exits the retry budget
is exhausted and the loop keeps iterating with a `command` whose child is
dead and already reaped by its waiter's `Wait`; a `Stop` consumed in that
reachable running state makes `mayKillCommand` call `Getpgid` on the dead
pid, ignore the ESRCH error (leaving `pgid = 0`), and
`syscall.Kill(-0, SIGKILL)` the daemon's own process group, so the loop
dies before ever executing `out <- true`: the acknowledgment is never
signalled and no `Stopped` transition happens. -/
theorem stop_after_crashloop_selfkill :
    isRunning (run initState [.launch demoCmd, failEv, failEv, failEv, failEv]) = true ∧
      isSelfKill (run initState
        [.launch demoCmd, failEv, failEv, failEv, failEv, Event.stop]) = true ∧
      isAckStopped (run initState
        [.launch demoCmd, failEv, failEv, failEv, failEv, Event.stop]) = false := by
  decide

/-- C9: accepting a launch allocates a fresh `done` channel (generation
`doneGen + 1`) and resets the failure counter, and a wait result delivered
on any older generation — in particular the exit of any previously launched
and killed process — is never received by the loop: the state after the
launch is unchanged by it, so it cannot bump `timeFailed`, trigger a
restart, or otherwise affect the new command. -/
theorem fresh_done_channel (s s' : SupState) (c : Cmd) (g : Nat) (res : WaitRes)
    (hl : step s (.launch c) = .running s') (hg : g ≤ s.doneGen) :
    s'.doneGen = s.doneGen + 1 ∧ s'.timeFailed = 0 ∧
      step s' (.done g res) = .running s' := by
  simp only [step] at hl
  cases hmk : mayKill s.alive s.command with
  | none =>
    rw [hmk] at hl
    cases hl
  | some l =>
    rw [hmk] at hl
    injection hl with hinj
    have hdg : s'.doneGen = s.doneGen + 1 := by
      rw [← hinj, startCmd_doneGen]
    have htf : s'.timeFailed = 0 := by
      rw [← hinj, startCmd_timeFailed]
    refine ⟨hdg, htf, ?_⟩
    simp only [step]
    rw [if_neg (by rw [hdg]; omega)]

/-- Witness for `fresh_done_channel`: a stale exit notification of
generation 0 arriving after the first launch. -/
theorem fresh_done_channel_witness :
    demoS1.doneGen = initState.doneGen + 1 ∧ demoS1.timeFailed = 0 ∧
      step demoS1 (.done 0 (.exitError 1)) = .running demoS1 :=
  fresh_done_channel initState demoS1 demoCmd 0 (.exitError 1) rfl (by decide)

/-- C2: for a command that always exits non-zero, the counter is 0 at
launch, each of the first three failures increments it and starts one new
process (`nextPid` counts starts: 1 initial + 3 restarts), the fourth
failure starts nothing (the `timeFailed < 3` guard fails and the
fall-through `Start` of the exhausted command errors), and the wait error
that the fall-through's `Wait` then necessarily produces ("exec: Wait was
already called", not an `*exec.ExitError`) hits the type-switch default
and `log.Fatalf` terminates the daemon. Launching again also resets the
counter to 0. -/
theorem bounded_retry :
    (resState (run initState [.launch demoCmd])).timeFailed = 0 ∧
    (resState (run initState [.launch demoCmd])).nextPid = 2 ∧
    isRunning (run initState [.launch demoCmd, failEv]) = true ∧
    (resState (run initState [.launch demoCmd, failEv])).timeFailed = 1 ∧
    (resState (run initState [.launch demoCmd, failEv])).nextPid = 3 ∧
    isRunning (run initState [.launch demoCmd, failEv, failEv]) = true ∧
    (resState (run initState [.launch demoCmd, failEv, failEv])).timeFailed = 2 ∧
    (resState (run initState [.launch demoCmd, failEv, failEv])).nextPid = 4 ∧
    isRunning (run initState [.launch demoCmd, failEv, failEv, failEv]) = true ∧
    (resState (run initState [.launch demoCmd, failEv, failEv, failEv])).timeFailed = 3 ∧
    (resState (run initState [.launch demoCmd, failEv, failEv, failEv])).nextPid = 5 ∧
    isRunning (run initState [.launch demoCmd, failEv, failEv, failEv, failEv]) = true ∧
    (resState (run initState [.launch demoCmd, failEv, failEv, failEv, failEv])).nextPid = 5 ∧
    isFatal (run initState
      [.launch demoCmd, failEv, failEv, failEv, failEv, .done 1 .otherError]) = true ∧
    (resState (run initState
      [.launch demoCmd, failEv, failEv, failEv, failEv, .done 1 .otherError])).nextPid = 5 ∧
    (resState (run initState [.launch demoCmd, failEv, .launch demoCmd])).timeFailed = 0 := by
  decide

/-- C3 is violated by the code: when the supervised process exits cleanly,
`Wait` returns nil, the nil error matches no `*exec.ExitError` case of the
type switch, and the default branch `log.Fatalf` terminates the daemon
(evaluating `err.Error()` on the nil error even panics first). The
supervisor does not remain idle. -/
theorem clean_exit_fatal :
    isFatal (run initState [.launch demoCmd, .done 1 .nilRes]) = true ∧
    isRunning (run initState [.launch demoCmd, .done 1 .nilRes]) = false := by
  decide

/-- C4 is violated by the code: the restart
`exec.Command(command.Path, command.Args...)` passes the full old `Args`
(whose head is already the program name) as the new trailing arguments, so
the restarted command keeps the path but its argument vector gains a
duplicated program name — it is not the same argument vector. -/
theorem restart_argv_duplicated :
    (relaunch demoCmd).path = demoCmd.path ∧
    (relaunch demoCmd).args ≠ demoCmd.args ∧
    (relaunch demoCmd).args = demoCmd.path :: demoCmd.args ∧
    (match (resState (run initState [.launch demoCmd, failEv])).command with
      | some c => c.cmd.args
      | none => []) = ["bash", "bash", "-c", "srv"] := by
  decide

/-- C10: when reading the Procfile fails, `findProcCommand` does not return
the read error: `err` is reassigned to the result of unmarshalling the nil
byte slice, which succeeds with an empty map, so the lookup misses and the
"Cannot find command named web" error is returned instead. -/
theorem readfile_error_swallowed :
    findProcCommand (.unreadable "open Procfile: no such file or directory") "web"
      = .error "Cannot find command named web" := by
  rfl

/-- C5: when the "web" key is absent from the Procfile mapping,
`reloadImpl` returns the lookup error having performed only checkout,
virtualenv setup and Procfile resolution — no `sendCommand` — and the
supervisor loop therefore receives no message during that deployment
cycle: its state, including any running process, is untouched. -/
theorem missing_web_aborts (entries : List (String × String))
    (envDir appDir : String) (port : Nat) (s : SupState)
    (h : lookupCmd "web" entries = none) :
    reloadImpl (.ok ()) (.ok ()) (.content entries) envDir appDir port
        = ([.checkout, .setupVenv, .resolveProcfile],
            .error "Cannot find command named web") ∧
      deployCycle s (.ok ()) (.ok ()) (.content entries) envDir appDir port
        = (.running s, some "Cannot find command named web") := by
  have hf : findProcCommand (.content entries) "web"
      = .error "Cannot find command named web" := by
    simp only [findProcCommand, yamlUnmarshal, h]
    rfl
  constructor
  · simp [reloadImpl, hf]
  · simp [deployCycle, reloadImpl, hf]

/-- Witness for `missing_web_aborts`: a Procfile that only defines a
"worker" process. -/
theorem missing_web_aborts_witness :
    reloadImpl (.ok ()) (.ok ()) (.content [("worker", "celery worker")]) "env" "app" 5005
        = ([.checkout, .setupVenv, .resolveProcfile],
            .error "Cannot find command named web") ∧
      deployCycle demoS1 (.ok ()) (.ok ()) (.content [("worker", "celery worker")])
          "env" "app" 5005
        = (.running demoS1, some "Cannot find command named web") :=
  missing_web_aborts [("worker", "celery worker")] "env" "app" 5005 demoS1 (by decide)

/-- C6: when the local branch tip equals the fetched remote tip, `GitPull`
returns `(false, nil)` and the local branch pointer is unchanged (only the
remote-tracking ref is refreshed by the fetch); when no local tracked
branch exists, `GitPull` creates one pointing at the remote tip and returns
`true`. -/
theorem gitpull_frame_and_create (repo : GitRepo) (rtip : String) :
    (repo.localTip = some rtip →
      GitPull true (some rtip) true repo
        = ({ repo with remoteTrackingTip := some rtip }, false, none)) ∧
    (repo.localTip = none →
      GitPull true (some rtip) true repo
        = (⟨some rtip, some rtip⟩, true, none)) := by
  constructor
  · intro h
    simp [GitPull, h]
  · intro h
    simp [GitPull, h]

/-- Witness for `gitpull_frame_and_create`: an up-to-date repository and a
freshly initialised one. -/
theorem gitpull_frame_and_create_witness :
    GitPull true (some "c1") true ⟨some "c1", some "c0"⟩
        = (⟨some "c1", some "c1"⟩, false, none) ∧
      GitPull true (some "c1") true ⟨none, none⟩
        = (⟨some "c1", some "c1"⟩, true, none) :=
  ⟨(gitpull_frame_and_create ⟨some "c1", some "c0"⟩ "c1").1 rfl,
   (gitpull_frame_and_create ⟨none, none⟩ "c1").2 rfl⟩

theorem gitpull_localTip (r : GitRepo) (t : String) (upOk : Bool) :
    (GitPull true (some t) upOk r).1.localTip = some t ∧
      (GitPull true (some t) upOk r).1.remoteTrackingTip = some t := by
  unfold GitPull
  cases h : r.localTip with
  | none => simp [h]
  | some ltip =>
    by_cases he : ltip = t
    · simp [h, he]
    · simp [h, he]

theorem gitpull_noop (r : GitRepo) (t : String) (h1 : r.localTip = some t)
    (h2 : r.remoteTrackingTip = some t) :
    GitPull true (some t) true r = (r, false, none) := by
  have hr : (⟨some t, some t⟩ : GitRepo) = r := by
    obtain ⟨lt, rt⟩ := r
    simp only [GitRepo.mk.injEq]
    exact ⟨h1.symm, h2.symm⟩
  simp [GitPull, h1, hr]

theorem Reload_repo (fetchOk : Bool) (fetched : Option String) (upOk : Bool)
    (repo : GitRepo) (force : Bool) (checkoutRes venvRes : Except String Unit)
    (pf : ProcfileState) (envDir appDir : String) (port : Nat) :
    (Reload fetchOk fetched upOk repo force checkoutRes venvRes pf envDir appDir port).1
      = (GitPull fetchOk fetched upOk repo).1 := by
  unfold Reload
  rcases hgp : GitPull fetchOk fetched upOk repo with ⟨repo1, updated, err⟩
  cases err with
  | none =>
    simp only []
    split
    · rcases reloadImpl checkoutRes venvRes pf envDir appDir port with ⟨acts, r⟩
      cases r <;> rfl
    · rfl
  | some e => rfl

/-- C7: a second `Reload(force=false)` with no intervening remote change is
a no-op: after any first `Reload` against remote tip `t`, a second call
that fetches the same tip `t` sees `GitPull` report no update, and with
`force=false` it returns success having performed no checkout, no
virtualenv setup, no Procfile resolution and no channel send. -/
theorem reload_second_noop (repo : GitRepo) (t : String) (upOk : Bool)
    (checkoutRes venvRes : Except String Unit) (pf : ProcfileState)
    (envDir appDir : String) (port : Nat) :
    Reload true (some t) true
        (Reload true (some t) upOk repo false checkoutRes venvRes pf envDir appDir port).1
        false checkoutRes venvRes pf envDir appDir port
      = ((Reload true (some t) upOk repo false checkoutRes venvRes pf envDir appDir port).1,
          [], none) := by
  set r1 := (Reload true (some t) upOk repo false checkoutRes venvRes pf
    envDir appDir port).1 with hr1
  have hrepo := Reload_repo true (some t) upOk repo false checkoutRes venvRes pf
    envDir appDir port
  have htips := gitpull_localTip repo t upOk
  have hl : r1.localTip = some t := by
    rw [hr1, hrepo]
    exact htips.1
  have hrt : r1.remoteTrackingTip = some t := by
    rw [hr1, hrepo]
    exact htips.2
  have hgp := gitpull_noop r1 t hl hrt
  unfold Reload
  rw [hgp]
  simp

end Ankku
